import Mathlib

/-!
Verification development for the memegen template-embedding pipeline.

The Python sources `app/embeddings.py` and `scripts/process_missing_embeddings.py`
are shallowly embedded below.  Python strings are modelled as `String` (or
`List Char` where character indexing matters), Python dicts holding template
configuration as the structure `TemplateConfig` (a key that may be missing or
hold `None` is modelled with `Option` or a small inductive), and the ChromaDB
collection as an association list from template id to stored entry.  The two
external collaborators (the OpenAI embedding call and the web scraper) are
modelled as function parameters `embedFn` / `scrapeFn`; the cosine distance
computed inside ChromaDB's query is likewise a parameter `distFn`, since a
cosine distance is irrational in general.  Vector components and distances are
modelled as `Rat`, epoch timestamps as `Int` (Python floats whose values are
whole seconds).  Fallible steps return `Option`.
-/

/-- Index of the last occurrence of character `c` in `l`, as in Python's
`str.rfind` (which returns -1 when absent; the absent case is `none` here). -/
def rfind (l : List Char) (c : Char) : Option Nat :=
  match l with
  | [] => none
  | a :: t =>
    match rfind t c with
    | some i => some (i + 1)
    | none => if a = c then some 0 else none

/-- Translation of `truncate_text` from `app/embeddings.py` (lines 107-119):
return the text unchanged when its length is at most `max_chars`; otherwise
take the first `max_chars` characters and, when the last period of that window
sits strictly beyond 80 percent of the window (Python's
`last_period > max_chars * 0.8`, rendered exactly as `5 * i > 4 * max_chars`),
cut immediately after that period.  The Python default for `max_chars`
is 6000. -/
def truncate_text (text : List Char) (max_chars : Nat) : List Char :=
  if text.length ≤ max_chars then text
  else
    match rfind (text.take max_chars) '.' with
    | some last_period =>
      if 5 * last_period > 4 * max_chars then
        (text.take max_chars).take (last_period + 1)
      else text.take max_chars
    | none => text.take max_chars

/-- Gregorian leap-year test, as in Python's `calendar`/`datetime`. -/
def isLeap (y : Nat) : Bool :=
  decide ((y % 4 = 0 ∧ ¬ y % 100 = 0) ∨ y % 400 = 0)

/-- Number of days in month `m` of year `y` (months 1..12). -/
def daysInMonth (y m : Nat) : Nat :=
  if m = 2 then (if isLeap y then 29 else 28)
  else if m = 4 ∨ m = 6 ∨ m = 9 ∨ m = 11 then 30
  else 31

/-- Days in year `y` before month `m`. -/
def daysBeforeMonth (y m : Nat) : Nat :=
  (List.range (m - 1)).foldl (fun acc i => acc + daysInMonth y (i + 1)) 0

/-- Days before January 1 of year `y` in the proleptic Gregorian calendar
counted from year 1 (CPython's `date.toordinal` convention). -/
def daysBeforeYear (y : Nat) : Nat :=
  let n := y - 1
  n * 365 + n / 4 - n / 100 + n / 400

/-- Proleptic Gregorian ordinal of the date `y-m-d` (CPython's
`date.toordinal`: day 1 is 0001-01-01). -/
def toOrdinal (y m d : Nat) : Nat :=
  daysBeforeYear y + daysBeforeMonth y m + d

/-- Ordinal of the Unix epoch 1970-01-01. -/
def epochOrdinal : Nat := 719163

/-- Split a character list on the dash character. -/
def splitDash : List Char → List (List Char)
  | [] => [[]]
  | c :: rest =>
    let r := splitDash rest
    if c = '-' then [] :: r
    else
      match r with
      | [] => [[c]]
      | h :: t => (c :: h) :: t

/-- Numeric value of a digit string. -/
def digitsToNat (l : List Char) : Nat :=
  l.foldl (fun a c => a * 10 + (c.toNat - 48)) 0

/-- Parse a field of at most `maxLen` digits, as `strptime` does for
a directive such as a two-digit month. -/
def parseNatField (l : List Char) (maxLen : Nat) : Option Nat :=
  if l ≠ [] ∧ l.all Char.isDigit = true ∧ l.length ≤ maxLen then
    some (digitsToNat l)
  else none

/-- Translation of `date_to_timestamp` from `app/embeddings.py` (lines 32-42)
for its `YYYY-MM-DD` branch: `datetime.strptime(s, s2)` with a
year-month-day format followed by `.timestamp()`, with naive datetimes
interpreted in UTC (Python's result shifts by the host's UTC offset; the
claims only depend on the UTC reading).  A string that fails to parse as a
calendar date yields `none`, matching the function's `except` branch that
returns `None`.  The ISO branch taken when the input contains a `T` is not
modelled; such inputs fail the digit check and also yield `none`. -/
def date_to_timestamp (s : String) : Option Int :=
  match splitDash s.data with
  | [ys, ms, ds] =>
    match parseNatField ys 4, parseNatField ms 2, parseNatField ds 2 with
    | some y, some m, some d =>
      if 1 ≤ y ∧ 1 ≤ m ∧ m ≤ 12 ∧ 1 ≤ d ∧ d ≤ daysInMonth y m then
        some (((toOrdinal y m d : Int) - (epochOrdinal : Int)) * 86400)
      else none
    | _, _, _ => none
  | _ => none

/-- Model of the `keywords` entry of a template config dict.  `absent` is a
missing key; `null` is a key present with a non-list value (`None` or another
non-list, which `isinstance(keywords, list)` rejects); `listVal` is a present
list whose members are strings or `None` (a `none` member models `None` and is
dropped by the code). -/
inductive KeywordsField where
  | absent
  | null
  | listVal (ks : List (Option String))
  deriving DecidableEq

/-- Model of the `example` entry of a template config dict.  `absent` is a
missing key, `null` a key present with value `None`, `str` a present non-list
scalar (rendered directly), `listVal` a present list with possibly-`None`
members. -/
inductive ExampleField where
  | absent
  | null
  | str (s : String)
  | listVal (es : List (Option String))
  deriving DecidableEq

/-- Model of a template config dict as read by `_load_template_configs` /
the maintenance script.  A field of type `Option String` is `none` when the
key is missing and `some v` when present with string value `v` (present keys
holding `None` are not modelled for the plain string fields; the code paths
under verification only string-format them or test their truthiness, and an
empty string is the falsy present value). -/
structure TemplateConfig where
  template_id : String
  name : Option String
  keywords : KeywordsField
  source : Option String
  exampleVal : ExampleField
  scraped_content : Option String
  aside_content : Option String
  added_at : Option String
  text_zones : Option Nat
  deriving DecidableEq

/-- Block of `parts` contributed by the `name` key in
`_create_template_text`: appended whenever the key is present (the code only
tests `if 'name' in config`, with no emptiness check). -/
def namePart (c : TemplateConfig) : List String :=
  match c.name with
  | some n => ["Name: " ++ n]
  | none => []

/-- Block contributed by `keywords`: appended when the key holds a non-empty
list (Python truthiness plus `isinstance(keywords, list)`) whose non-`None`
members form a non-empty list; those members are comma-joined. -/
def keywordsPart (c : TemplateConfig) : List String :=
  match c.keywords with
  | .listVal ks =>
    if ks = [] then []
    else
      let valid := ks.filterMap id
      if valid = [] then []
      else ["Keywords: " ++ String.intercalate ", " valid]
  | _ => []

/-- Block contributed by `source`: appended whenever the key is present
(the code only tests `if 'source' in config`). -/
def sourcePart (c : TemplateConfig) : List String :=
  match c.source with
  | some s => ["Source: " ++ s]
  | none => []

/-- Block contributed by `example`: for a present list, appended when the
non-`None` members form a non-empty list, space-joined; for a present
non-`None` scalar, always appended; a present `None` is skipped. -/
def examplePart (c : TemplateConfig) : List String :=
  match c.exampleVal with
  | .listVal es =>
    let valid := es.filterMap id
    if valid = [] then []
    else ["Example: " ++ String.intercalate " " valid]
  | .str s => ["Example: " ++ s]
  | _ => []

/-- Block contributed by `scraped_content`: appended when the key is present
with a truthy (non-empty) value. -/
def descriptionPart (c : TemplateConfig) : List String :=
  match c.scraped_content with
  | some sc => if sc = "" then [] else ["Description: " ++ sc]
  | none => []

/-- Translation of `_create_template_text` from `app/embeddings.py`
(lines 260-289).  The Python code appends each block to `parts` in this fixed
order and returns `" ".join(parts)`; sequential appends of per-field blocks
are rendered as the concatenation of the block lists. -/
def create_template_text (c : TemplateConfig) : String :=
  String.intercalate " "
    (namePart c ++ keywordsPart c ++ sourcePart c ++ examplePart c ++
      descriptionPart c)

/-- Optional name segment, following the spec as amended: present whenever
the field is present (a present empty name still yields a segment). -/
def nameSegment (c : TemplateConfig) : Option String :=
  c.name.map (fun n => "Name: " ++ n)

/-- Optional keywords segment, following the spec: omitted when the field is
absent, not a list, or has zero valid entries after dropping null members. -/
def keywordsSegment (c : TemplateConfig) : Option String :=
  match c.keywords with
  | .listVal ks =>
    if ks.filterMap id = [] then none
    else some ("Keywords: " ++ String.intercalate ", " (ks.filterMap id))
  | _ => none

/-- Optional source segment, following the spec as amended: present whenever
the field is present (a present empty source still yields a segment). -/
def sourceSegment (c : TemplateConfig) : Option String :=
  c.source.map (fun s => "Source: " ++ s)

/-- Optional example segment, following the spec as amended: a present list
yields a segment when valid entries remain after dropping null members; a
present non-null scalar always yields a segment. -/
def exampleSegment (c : TemplateConfig) : Option String :=
  match c.exampleVal with
  | .listVal es =>
    if es.filterMap id = [] then none
    else some ("Example: " ++ String.intercalate " " (es.filterMap id))
  | .str s => some ("Example: " ++ s)
  | _ => none

/-- Optional description segment, following the spec: omitted when the field
is absent or empty. -/
def descriptionSegment (c : TemplateConfig) : Option String :=
  match c.scraped_content with
  | some sc => if sc = "" then none else some ("Description: " ++ sc)
  | none => none

/-- Modelled from the spec (document synthesis, section 4.1, under the
amendment forced by the code): the five optional segments in fixed order,
dropping the absent ones, joined by a single space with no trailing
separator. -/
def synthesize_spec (c : TemplateConfig) : String :=
  String.intercalate " "
    (([nameSegment c, keywordsSegment c, sourceSegment c, exampleSegment c,
       descriptionSegment c]).filterMap id)

/-- Result of a successful `scrape_webpage` call: the cleaned main text, the
aside content (an empty string when no aside was found), and the optional
ISO `added_at` string. -/
structure ScrapeResult where
  text : String
  aside_content : Option String
  added_at : Option String
  deriving DecidableEq

/-- Python truthiness of an optional string: true exactly when present and
non-empty. -/
def truthyStr (o : Option String) : Bool :=
  match o with
  | some s => s ≠ ""
  | none => false

/-- Translation of `_scrape_and_update_config` from `app/embeddings.py`
(lines 206-231).  The external `scrape_webpage` coroutine is the parameter
`scrapeFn` (`none` models its failure path returning `None`).  The result is
the updated config paired with whether the scraper was invoked.  The
write-back of the updated config to `config.yml` is a Template Store side
effect outside the modelled state. -/
def scrape_and_update_config (scrapeFn : String → Option ScrapeResult)
    (config : TemplateConfig) (force_rescrape : Bool) : TemplateConfig × Bool :=
  match config.source with
  | none => (config, false)
  | some src =>
    if src = "" then (config, false)
    else if force_rescrape = false ∧ truthyStr config.scraped_content = true then
      (config, false)
    else
      match scrapeFn src with
      | some r =>
        let c1 := { config with scraped_content := some r.text }
        let c2 :=
          match r.aside_content with
          | some a => if a = "" then c1 else { c1 with aside_content := some a }
          | none => c1
        let c3 :=
          match r.added_at with
          | some ad => if ad = "" then c2 else { c2 with added_at := some ad }
          | none => c2
        (c3, true)
      | none => (config, true)

/-- Metadata block stored with each index entry, as built by the write paths.
`config` stands for the serialized config snapshot (`json.dumps(config)` in
`add_template`, `yaml.dump(config)` in the refresh script); serialization is
modelled structurally by keeping the config value itself.  `added_at_ts` is
`some t` when the Python code stores the number `t` and `none` when it stores
`None`. -/
structure EntryMetadata where
  name : String
  template_id : String
  text_zones : String
  added_at : String
  added_at_ts : Option Int
  config : TemplateConfig
  deriving DecidableEq

/-- One stored ChromaDB record: embedding vector, document text, metadata. -/
structure IndexEntry where
  embedding : List Rat
  document : String
  metadata : EntryMetadata
  deriving DecidableEq

/-- The ChromaDB collection, modelled as an association list from template id
to stored entry (ChromaDB keys every record by its string id). -/
abbrev Collection := List (String × IndexEntry)

/-- Lookup of the entry stored under `id` (`collection.get(ids=[id])`). -/
def Collection.get1 (col : Collection) (id : String) : Option IndexEntry :=
  (col.find? (fun p => p.1 = id)).map (fun p => p.2)

/-- Whether some entry is stored under `id`. -/
def Collection.hasId (col : Collection) (id : String) : Bool :=
  col.any (fun p => p.1 = id)

/-- All stored ids, in storage order (`collection.get()["ids"]`,
`list_all_templates`). -/
def Collection.listIds (col : Collection) : List String :=
  col.map (fun p => p.1)

/-- ChromaDB `collection.update`: replace the entry stored under an existing
id; an unknown id leaves the collection unchanged. -/
def Collection.updateEntry (col : Collection) (id : String) (e : IndexEntry) :
    Collection :=
  col.map (fun p => if p.1 = id then (id, e) else p)

/-- Metadata dict built by `add_template` in `app/embeddings.py`
(lines 300-312): `added_at` defaults to the empty string, and
`added_at_ts` is `date_to_timestamp(added_at) if added_at else None` —
the explicit `None` sentinel when `added_at` is falsy. -/
def add_metadata (template_id : String) (config : TemplateConfig) :
    EntryMetadata :=
  let added_at := config.added_at.getD ""
  let added_at_ts : Option Int :=
    if added_at = "" then none else date_to_timestamp added_at
  { name := config.name.getD ""
    template_id := template_id
    text_zones := toString (config.text_zones.getD 2)
    added_at := added_at
    added_at_ts := added_at_ts
    config := config }

/-- Translation of `add_template` from `app/embeddings.py` (lines 291-334).
`get_embedding` (OpenAI call behind `truncate_text`) is the parameter
`embedFn`; `none` or an empty vector is the falsy failure path that returns
`False` without touching the collection.  The write uses ChromaDB
`collection.add`, which is insert-only: an id that is already stored is left
entirely unchanged (depending on the ChromaDB version a duplicate add is
skipped with a warning or raises, and the raise would be caught by this
function's `except`; in both cases the stored entry keeps its prior
content).  The returned flag follows the skip-with-warning behaviour in
which the call itself succeeds. -/
def add_template (embedFn : String → Option (List Rat)) (col : Collection)
    (template_id : String) (config : TemplateConfig)
    (template_text : String) : Bool × Collection :=
  match embedFn template_text with
  | none => (false, col)
  | some embedding =>
    if embedding = [] then (false, col)
    else if col.hasId template_id then (true, col)
    else
      (true, col ++ [(template_id,
        { embedding := embedding
          document := template_text
          metadata := add_metadata template_id config })])

/-- Metadata predicate sent to `collection.query`: optional lower and upper
bounds on the `added_at_ts` field (the `where` dict with `$gte` / `$lte`). -/
structure WhereClause where
  gte : Option Int
  lte : Option Int
  deriving DecidableEq

/-- Construction of the `where` dict in `search_templates`
(`app/embeddings.py` lines 427-443).  Python tests `if from_ts:` — truthiness
— so a conversion that fails (`None`) or yields the number zero adds no
constraint. -/
def build_where (from_date to_date : Option String) : WhereClause :=
  let gte : Option Int :=
    match from_date with
    | some fd =>
      match date_to_timestamp fd with
      | some ts => if ts = 0 then none else some ts
      | none => none
    | none => none
  let lte : Option Int :=
    match to_date with
    | some td =>
      match date_to_timestamp td with
      | some ts => if ts = 0 then none else some ts
      | none => none
    | none => none
  { gte := gte, lte := lte }

/-- Whether a stored `added_at_ts` metadata value satisfies the predicate.
A record whose field is not a number (the `None` written by `add_template`
for templates without a date) matches no range constraint. -/
def matches_where (w : WhereClause) (ts : Option Int) : Bool :=
  (match w.gte with
   | some g => (match ts with | some t => g ≤ t | none => false)
   | none => true) &&
  (match w.lte with
   | some l => (match ts with | some t => t ≤ l | none => false)
   | none => true)

/-- Insertion into a list sorted by ascending `key`. -/
def insertByKey {α : Type} (key : α → Rat) (a : α) : List α → List α
  | [] => [a]
  | b :: l => if key a ≤ key b then a :: b :: l else b :: insertByKey key a l

/-- Insertion sort by ascending `key`. -/
def sortByKey {α : Type} (key : α → Rat) : List α → List α
  | [] => []
  | a :: l => insertByKey key a (sortByKey key l)

/-- Modelled from the spec: the vector-index query contract (section 4.3;
ChromaDB `collection.query` is external library code): among the stored
entries whose metadata satisfies the predicate, return `(id, entry,
distance)` triples ordered by ascending distance to the query embedding,
truncated to `n_results`.  The cosine distance computed inside the store is
the parameter `distFn`. -/
def Collection.query (col : Collection)
    (distFn : List Rat → List Rat → Rat) (query_embedding : List Rat)
    (n_results : Nat) (w : WhereClause) : List (String × IndexEntry × Rat) :=
  let candidates :=
    (col.filter (fun p => matches_where w p.2.metadata.added_at_ts)).map
      (fun p => (p.1, p.2, distFn query_embedding p.2.embedding))
  (sortByKey (fun t => t.2.2) candidates).take n_results

/-- One search hit as assembled by `search_templates`. -/
structure SearchResult where
  template_id : String
  name : String
  text_zones : Nat
  added_at : String
  similarity : Rat
  config : TemplateConfig
  deriving DecidableEq

/-- Translation of `search_templates` from `app/embeddings.py`
(lines 405-472): embed the query (failure returns the empty list), build the
`where` clause from the dates, query the collection, and map each triple to a
result with `similarity = 1 - distance`.  `int(metadata['text_zones'])` is
modelled by `digitsToNat` on the canonical digit strings the write paths
store; `json.loads` of the serialized config is the stored config itself. -/
def search_templates (embedFn : String → Option (List Rat))
    (distFn : List Rat → List Rat → Rat) (col : Collection) (query : String)
    (n_results : Nat) (from_date to_date : Option String) :
    List SearchResult :=
  match embedFn query with
  | none => []
  | some query_embedding =>
    let w := build_where from_date to_date
    (col.query distFn query_embedding n_results w).map (fun t =>
      { template_id := t.1
        name := t.2.1.metadata.name
        text_zones := digitsToNat t.2.1.metadata.text_zones.data
        added_at := t.2.1.metadata.added_at
        similarity := 1 - t.2.2
        config := t.2.1.metadata.config })

/-- Translation of `get_missing_templates` from `app/embeddings.py`
(lines 474-492): the ids present in the Template Store but not in the
collection (`all_template_ids - existing_ids`), returned as the store
configs whose id is missing. -/
def get_missing_templates (store : List TemplateConfig) (col : Collection) :
    List TemplateConfig :=
  let all_template_ids := store.map (fun c => c.template_id)
  let missing_ids := all_template_ids.filter (fun id => ¬ col.hasId id = true)
  store.filter (fun c => missing_ids.contains c.template_id)

/-- Per-item loop of `process_missing_templates` (`app/embeddings.py`
lines 494-523): enrich, synthesize, embed, add; count the successful adds. -/
def process_missing_loop (embedFn : String → Option (List Rat))
    (scrapeFn : String → Option ScrapeResult) (force_rescrape : Bool) :
    List TemplateConfig → Nat × Collection → Nat × Collection
  | [], acc => acc
  | c :: rest, (success_count, col) =>
    let c2 := (scrape_and_update_config scrapeFn c force_rescrape).1
    let template_text := create_template_text c2
    let r := add_template embedFn col c2.template_id c2 template_text
    process_missing_loop embedFn scrapeFn force_rescrape rest
      (if r.1 then success_count + 1 else success_count, r.2)

/-- Translation of `process_missing_templates`: run the loop over exactly the
missing configs, starting from a zero success count, and return the count
together with the updated collection. -/
def process_missing_templates (embedFn : String → Option (List Rat))
    (scrapeFn : String → Option ScrapeResult) (store : List TemplateConfig)
    (col : Collection) (force_rescrape : Bool) : Nat × Collection :=
  process_missing_loop embedFn scrapeFn force_rescrape
    (get_missing_templates store col) (0, col)

/-- Metadata dict built by `process_updated_metadata` in
`scripts/process_missing_embeddings.py` (lines 46-61): unlike `add_template`,
a missing or empty `added_at` stores the number `0` for `added_at_ts`
(the code comments read `Use 0 instead of None` and `Will be 0 if no
date`). -/
def refresh_metadata (template_id : String) (config : TemplateConfig) :
    EntryMetadata :=
  let added_at := config.added_at.getD ""
  let added_at_ts : Option Int :=
    if added_at = "" then some 0 else date_to_timestamp added_at
  { name := config.name.getD ""
    template_id := template_id
    text_zones := toString (config.text_zones.getD 2)
    added_at := added_at
    added_at_ts := added_at_ts
    config := config }

/-- Per-id loop of `process_updated_metadata`
(`scripts/process_missing_embeddings.py` lines 34-87): for each id, read the
current config (`cfgOf`, the Template Store read; `none` is a missing
`config.yml`, skipped), fetch the stored embedding and document, and update
the entry reusing that embedding and document with the freshly computed
metadata. -/
def refresh_loop (cfgOf : String → Option TemplateConfig) :
    List String → Nat × Collection → Nat × Collection
  | [], acc => acc
  | id :: rest, (success_count, col) =>
    match cfgOf id with
    | none => refresh_loop cfgOf rest (success_count, col)
    | some config =>
      match col.get1 id with
      | none => refresh_loop cfgOf rest (success_count, col)
      | some e =>
        refresh_loop cfgOf rest
          (success_count + 1,
           col.updateEntry id
             { embedding := e.embedding
               document := e.document
               metadata := refresh_metadata id config })

/-- Translation of `process_updated_metadata`: iterate the refresh loop over
the ids listed from the collection before the loop starts. -/
def process_updated_metadata (cfgOf : String → Option TemplateConfig)
    (col : Collection) : Nat × Collection :=
  refresh_loop cfgOf col.listIds (0, col)

/-- Concrete template config used by witnesses: name and one keyword, no
source, example, scraped text or date (spec scenario 1). -/
def cfgDrake : TemplateConfig :=
  { template_id := "a", name := some "Drake",
    keywords := .listVal [some "choice"], source := none,
    exampleVal := .absent, scraped_content := none, aside_content := none,
    added_at := none, text_zones := none }

/-- Concrete config whose `name` key is present with an empty value and all
other keys are missing. -/
def cfgEmptyName : TemplateConfig :=
  { template_id := "t", name := some "", keywords := .absent, source := none,
    exampleVal := .absent, scraped_content := none, aside_content := none,
    added_at := none, text_zones := none }

/-- Copy of `cfgDrake` under id `b`. -/
def cfgB : TemplateConfig := { cfgDrake with template_id := "b" }

/-- Copy of `cfgDrake` under id `c`. -/
def cfgC : TemplateConfig := { cfgDrake with template_id := "c" }

/-- Concrete embedding provider used by witnesses: every text embeds to the
one-component vector `[1]`. -/
def embedF : String → Option (List Rat) := fun _ => some [1]

/-- Concrete content extractor used by witnesses: every fetch fails. -/
def scrapeF : String → Option ScrapeResult := fun _ => none

/-- Concrete distance function used by witnesses: constant zero. -/
def distF : List Rat → List Rat → Rat := fun _ _ => 0

/-- Entry stored under id `a` before a duplicate write. -/
def entOld : IndexEntry :=
  { embedding := [1], document := "old text",
    metadata := add_metadata "a" cfgDrake }

/-- Collection already holding id `a`. -/
def colA : Collection := [("a", entOld)]

/-- Entry whose stored timestamp is one day before the Unix epoch. -/
def entNeg : IndexEntry :=
  { embedding := [1], document := "d",
    metadata := { name := "n", template_id := "a", text_zones := "2",
                  added_at := "1969-12-31", added_at_ts := some (-86400),
                  config := cfgDrake } }

/-- Collection holding only the pre-epoch entry. -/
def colNeg : Collection := [("a", entNeg)]

/-- Entry whose stored timestamp falls in the year 2020. -/
def entPos : IndexEntry :=
  { embedding := [1], document := "d",
    metadata := { name := "n", template_id := "a", text_zones := "2",
                  added_at := "2020-09-13", added_at_ts := some 1600000000,
                  config := cfgDrake } }

/-- Collection holding only the 2020 entry. -/
def colPos : Collection := [("a", entPos)]

/-- Template Store read used by the refresh witness: only id `a` has a
config file. -/
def cfgOfA : String → Option TemplateConfig :=
  fun id => if id = "a" then some cfgDrake else none

/-- Config with a source URL and already-present scraped text
(spec scenario 2). -/
def cfgScraped : TemplateConfig :=
  { cfgDrake with template_id := "x", source := some "http://e.g",
                  scraped_content := some "already present" }

/-- The search result assembled from `entPos` under the witness embedding
and distance functions. -/
def rPos : SearchResult :=
  { template_id := "a", name := "n", text_zones := 2,
    added_at := "2020-09-13", similarity := 1, config := cfgDrake }

theorem rfind_getElem {l : List Char} {c : Char} {i : Nat}
    (h : rfind l c = some i) : l[i]? = some c := by
  induction l generalizing i with
  | nil => simp [rfind] at h
  | cons a t ih =>
    rw [rfind] at h
    cases hr : rfind t c with
    | some j =>
      rw [hr] at h
      cases h
      simpa using ih hr
    | none =>
      rw [hr] at h
      by_cases hac : a = c
      · rw [if_pos hac] at h
        cases h
        simp [hac]
      · rw [if_neg hac] at h
        cases h

theorem rfind_none {l : List Char} {c : Char}
    (h : rfind l c = none) : ∀ j : Nat, l[j]? ≠ some c := by
  induction l with
  | nil => intro j; simp
  | cons a t ih =>
    rw [rfind] at h
    cases hr : rfind t c with
    | some j => rw [hr] at h; cases h
    | none =>
      rw [hr] at h
      by_cases hac : a = c
      · rw [if_pos hac] at h; cases h
      · intro j
        cases j with
        | zero => simpa using hac
        | succ j' => simpa using ih hr j'

theorem rfind_maximal {l : List Char} {c : Char} {i : Nat}
    (h : rfind l c = some i) : ∀ j, l[j]? = some c → j ≤ i := by
  induction l generalizing i with
  | nil => intro j hj; simp at hj
  | cons a t ih =>
    rw [rfind] at h
    cases hr : rfind t c with
    | some k =>
      rw [hr] at h
      cases h
      intro j hj
      cases j with
      | zero => omega
      | succ j' =>
        have := ih hr j' (by simpa using hj)
        omega
    | none =>
      rw [hr] at h
      by_cases hac : a = c
      · rw [if_pos hac] at h
        cases h
        intro j hj
        cases j with
        | zero => omega
        | succ j' =>
          exact absurd (by simpa using hj) (rfind_none hr j')
      · rw [if_neg hac] at h
        cases h

theorem truncate_text_of_le {text : List Char} {m : Nat}
    (h : text.length ≤ m) : truncate_text text m = text := by
  simp [truncate_text, h]

theorem truncate_text_rfind_some {text : List Char} {m lp : Nat}
    (h : ¬ text.length ≤ m) (hr : rfind (text.take m) '.' = some lp) :
    truncate_text text m =
      if 5 * lp > 4 * m then (text.take m).take (lp + 1)
      else text.take m := by
  unfold truncate_text
  rw [if_neg h, hr]

theorem truncate_text_rfind_none {text : List Char} {m : Nat}
    (h : ¬ text.length ≤ m) (hr : rfind (text.take m) '.' = none) :
    truncate_text text m = text.take m := by
  unfold truncate_text
  rw [if_neg h, hr]

theorem truncate_text_length_le {text : List Char} {m : Nat}
    (h : m < text.length) : (truncate_text text m).length ≤ m := by
  cases hr : rfind (text.take m) '.' with
  | some lp =>
    rw [truncate_text_rfind_some (by omega) hr]
    by_cases h5 : 5 * lp > 4 * m
    · rw [if_pos h5, List.length_take, List.length_take]
      omega
    · rw [if_neg h5, List.length_take]
      omega
  | none =>
    rw [truncate_text_rfind_none (by omega) hr, List.length_take]
    omega

/-- Claim C2 (truncation boundary): for every text longer than `max_chars`,
the truncated text has length at most `max_chars`; if a period occurs in the
window of the first `max_chars` characters at an index in the last twenty
percent of the window (index `i` with `5 * i > 4 * max_chars`, the exact
rendering of Python's `last_period > max_chars * 0.8`), the cut lands
immediately after the last such period, so the output ends with that period;
otherwise the output is exactly the first `max_chars` characters. -/
theorem truncation_boundary (text : List Char) (max_chars : Nat)
    (h : text.length > max_chars) :
    (truncate_text text max_chars).length ≤ max_chars ∧
    ((∃ i, 5 * i > 4 * max_chars ∧ (text.take max_chars)[i]? = some '.') →
      ∃ j, 5 * j > 4 * max_chars ∧ (text.take max_chars)[j]? = some '.' ∧
        truncate_text text max_chars = (text.take max_chars).take (j + 1) ∧
        (truncate_text text max_chars).getLast? = some '.') ∧
    ((∀ i, ¬(5 * i > 4 * max_chars ∧ (text.take max_chars)[i]? = some '.')) →
      truncate_text text max_chars = text.take max_chars) := by
  refine ⟨truncate_text_length_le h, ?_, ?_⟩
  · rintro ⟨i, hi5, hig⟩
    cases hr : rfind (text.take max_chars) '.' with
    | none => exact absurd hig (rfind_none hr i)
    | some lp =>
      have hile : i ≤ lp := rfind_maximal hr i hig
      have hlp5 : 5 * lp > 4 * max_chars := by omega
      have hlpg : (text.take max_chars)[lp]? = some '.' := rfind_getElem hr
      have heq : truncate_text text max_chars =
          (text.take max_chars).take (lp + 1) := by
        rw [truncate_text_rfind_some (by omega) hr, if_pos hlp5]
      refine ⟨lp, hlp5, hlpg, heq, ?_⟩
      rw [heq]
      have hlplt : lp < (text.take max_chars).length :=
        (List.getElem?_eq_some.mp hlpg).1
      rw [List.length_take] at hlplt
      rw [List.getLast?_eq_getElem?]
      have hlen : ((text.take max_chars).take (lp + 1)).length = lp + 1 := by
        rw [List.length_take, List.length_take]
        omega
      rw [hlen]
      simpa [List.getElem?_take] using hlpg
  · intro hno
    cases hr : rfind (text.take max_chars) '.' with
    | none => rw [truncate_text_rfind_none (by omega) hr]
    | some lp =>
      have hlpg : (text.take max_chars)[lp]? = some '.' := rfind_getElem hr
      have h5 : ¬ 5 * lp > 4 * max_chars := fun h5 => hno lp ⟨h5, hlpg⟩
      rw [truncate_text_rfind_some (by omega) hr, if_neg h5]

/-- Witness for C2 at a concrete input: a 13-character text truncated at 10,
whose window's last period is at index 9, strictly inside the last twenty
percent of the window. -/
theorem truncation_boundary_witness :
    ("abcdefghi.xyz".data.length > 10) ∧
    ((truncate_text "abcdefghi.xyz".data 10).length ≤ 10 ∧
    ((∃ i, 5 * i > 4 * 10 ∧ ("abcdefghi.xyz".data.take 10)[i]? = some '.') →
      ∃ j, 5 * j > 4 * 10 ∧ ("abcdefghi.xyz".data.take 10)[j]? = some '.' ∧
        truncate_text "abcdefghi.xyz".data 10 =
          ("abcdefghi.xyz".data.take 10).take (j + 1) ∧
        (truncate_text "abcdefghi.xyz".data 10).getLast? = some '.') ∧
    ((∀ i, ¬(5 * i > 4 * 10 ∧ ("abcdefghi.xyz".data.take 10)[i]? = some '.')) →
      truncate_text "abcdefghi.xyz".data 10 = "abcdefghi.xyz".data.take 10)) :=
  ⟨by decide, truncation_boundary "abcdefghi.xyz".data 10 (by decide)⟩

/-- Claim C10 (truncation is idempotent): a text no longer than `max_chars`
is returned unchanged, and truncating twice at the same `max_chars` equals
truncating once. -/
theorem truncate_idempotent (text : List Char) (max_chars : Nat) :
    (text.length ≤ max_chars → truncate_text text max_chars = text) ∧
    truncate_text (truncate_text text max_chars) max_chars =
      truncate_text text max_chars := by
  refine ⟨truncate_text_of_le, ?_⟩
  by_cases h : text.length ≤ max_chars
  · rw [truncate_text_of_le h, truncate_text_of_le h]
  · exact truncate_text_of_le (truncate_text_length_le (by omega))

/-- Witness for C10 at a concrete input: a short text below the limit, and
the double-truncation equation at a text above the limit. -/
theorem truncate_idempotent_witness :
    ("ab".data.length ≤ 10 → truncate_text "ab".data 10 = "ab".data) ∧
    truncate_text (truncate_text "abcdefghi.xyz".data 10) 10 =
      truncate_text "abcdefghi.xyz".data 10 :=
  ⟨(truncate_idempotent "ab".data 10).1,
   (truncate_idempotent "abcdefghi.xyz".data 10).2⟩

theorem filterMap_id_five (a b c d e : Option String) :
    [a, b, c, d, e].filterMap id =
      a.toList ++ (b.toList ++ (c.toList ++ (d.toList ++ e.toList))) := by
  cases a <;> cases b <;> cases c <;> cases d <;> cases e <;> rfl

theorem namePart_eq_segment (c : TemplateConfig) :
    namePart c = (nameSegment c).toList := by
  cases h : c.name <;> simp [namePart, nameSegment, h]

theorem keywordsPart_eq_segment (c : TemplateConfig) :
    keywordsPart c = (keywordsSegment c).toList := by
  cases h : c.keywords with
  | absent => simp [keywordsPart, keywordsSegment, h]
  | null => simp [keywordsPart, keywordsSegment, h]
  | listVal ks =>
    simp only [keywordsPart, keywordsSegment, h]
    by_cases hks : ks = []
    · subst hks
      simp
    · rw [if_neg hks]
      by_cases hv : ks.filterMap id = [] <;> simp [hv]

theorem sourcePart_eq_segment (c : TemplateConfig) :
    sourcePart c = (sourceSegment c).toList := by
  cases h : c.source <;> simp [sourcePart, sourceSegment, h]

theorem examplePart_eq_segment (c : TemplateConfig) :
    examplePart c = (exampleSegment c).toList := by
  cases h : c.exampleVal with
  | absent => simp [examplePart, exampleSegment, h]
  | null => simp [examplePart, exampleSegment, h]
  | str s => simp [examplePart, exampleSegment, h]
  | listVal es =>
    simp only [examplePart, exampleSegment, h]
    by_cases hv : es.filterMap id = [] <;> simp [hv]

theorem descriptionPart_eq_segment (c : TemplateConfig) :
    descriptionPart c = (descriptionSegment c).toList := by
  cases h : c.scraped_content with
  | none => simp [descriptionPart, descriptionSegment, h]
  | some sc => by_cases hsc : sc = "" <;>
      simp [descriptionPart, descriptionSegment, h, hsc]

/-- Claim C3 counterexample: a record whose `name` key is present with an
empty value.  The claim requires every segment with an empty source field to
be omitted, which would synthesize the empty document here; the code only
tests key presence for `name` (and `source`) and emits the segment. -/
theorem document_synthesis_counterexample :
    create_template_text cfgEmptyName = "Name: " ∧
    ("Name: " : String) ≠ "" := by
  exact ⟨rfl, by decide⟩

/-- Claim C3 as amended: the synthesized text is the fixed-order
single-space join of the optional segments, where the keywords segment, the
list-example segment and the description segment are omitted when absent,
empty or without valid entries, but the name and source segments are emitted
whenever their key is present — even with an empty value — and a present
non-null scalar example is always emitted. -/
theorem document_synthesis (c : TemplateConfig) :
    create_template_text c = synthesize_spec c := by
  unfold create_template_text synthesize_spec
  rw [filterMap_id_five, ← namePart_eq_segment, ← keywordsPart_eq_segment,
    ← sourcePart_eq_segment, ← examplePart_eq_segment,
    ← descriptionPart_eq_segment]
  simp [List.append_assoc]

/-- Claim C9 (enrichment no-op): when the record has no source URL, or when
scraped text is already present (non-empty) and `force` is false, enrichment
returns the record unchanged and makes no extractor call. -/
theorem enrichment_noop (scrapeFn : String → Option ScrapeResult)
    (cfg : TemplateConfig) (force : Bool)
    (h : cfg.source = none ∨
      (force = false ∧ ∃ sc, cfg.scraped_content = some sc ∧ sc ≠ "")) :
    scrape_and_update_config scrapeFn cfg force = (cfg, false) := by
  rcases h with h | ⟨hf, sc, hsc, hne⟩
  · simp [scrape_and_update_config, h]
  · cases hs : cfg.source with
    | none => simp [scrape_and_update_config, hs]
    | some src =>
      by_cases hsrc : src = ""
      · simp [scrape_and_update_config, hs, hsrc]
      · have ht : truthyStr cfg.scraped_content = true := by
          simp [truthyStr, hsc, hne]
        simp [scrape_and_update_config, hs, hsrc, hf, ht]

/-- Witness for C9 at the concrete input of spec scenario 2: a record with a
source URL and scraped text `already present`, `force` false. -/
theorem enrichment_noop_witness :
    (cfgScraped.source = none ∨
      (false = false ∧
        ∃ sc, cfgScraped.scraped_content = some sc ∧ sc ≠ "")) ∧
    scrape_and_update_config scrapeF cfgScraped false = (cfgScraped, false) :=
  ⟨Or.inr ⟨rfl, "already present", rfl, by decide⟩,
   enrichment_noop scrapeF cfgScraped false
     (Or.inr ⟨rfl, "already present", rfl, by decide⟩)⟩

/-- Claim C1 counterexample: the collection already stores id `a` with
document `old text`; `add_template` for the same id with the different
document `new text` leaves the stored entry holding the original — not the
latest — content, because the write is ChromaDB's insert-only `add`. -/
theorem replace_not_duplicate_counterexample :
    (add_template embedF colA "a" cfgDrake "new text").2 = colA ∧
    ((add_template embedF colA "a" cfgDrake "new text").2.get1 "a").map
      (fun e => e.document) = some "old text" ∧
    ("old text" : String) ≠ "new text" := by
  refine ⟨by decide, by decide, by decide⟩

/-- Claim C1 as amended: writing an entry for an id that is already indexed
leaves the collection unchanged — exactly one entry for that id, holding the
original (first-written) content rather than the latest; the write path is
insert-only, and content replacement happens only through the full rebuild's
delete-then-add or the metadata update. -/
theorem replace_not_duplicate (embedFn : String → Option (List Rat))
    (col : Collection) (id : String) (cfg : TemplateConfig) (text : String)
    (h : col.hasId id = true) :
    (add_template embedFn col id cfg text).2 = col ∧
    (add_template embedFn col id cfg text).2.get1 id = col.get1 id := by
  have h2 : (add_template embedFn col id cfg text).2 = col := by
    cases he : embedFn text with
    | none => simp [add_template, he]
    | some emb =>
      by_cases hemp : emb = []
      · simp [add_template, he, hemp]
      · simp [add_template, he, hemp, h]
  exact ⟨h2, by rw [h2]⟩

/-- Witness for C1's amended statement at a concrete duplicate write. -/
theorem replace_not_duplicate_witness :
    colA.hasId "a" = true ∧
    (add_template embedF colA "a" cfgB "other").2 = colA ∧
    (add_template embedF colA "a" cfgB "other").2.get1 "a" = colA.get1 "a" :=
  ⟨by decide,
   (replace_not_duplicate embedF colA "a" cfgB "other" (by decide)).1,
   (replace_not_duplicate embedF colA "a" cfgB "other" (by decide)).2⟩

/-- Claim C5 (timestamp sentinel): evidence that the claim holds on the
`add_template` write path (absent `added_at` stores the `None` sentinel) and
fails on the metadata-refresh write path, which stores the number `0` for an
absent `added_at` — a value that silently satisfies any non-negative
`toDate` upper-bound filter, exactly what the claim forbids. -/
theorem timestamp_sentinel_zero :
    (add_metadata "a" cfgDrake).added_at_ts = none ∧
    (refresh_metadata "a" cfgDrake).added_at_ts = some 0 ∧
    matches_where (build_where none (some "2019-01-01"))
      (refresh_metadata "a" cfgDrake).added_at_ts = true := by
  exact ⟨rfl, rfl, by decide⟩

theorem mem_insertByKey {α : Type} (key : α → Rat) (a x : α) (l : List α) :
    x ∈ insertByKey key a l ↔ x = a ∨ x ∈ l := by
  induction l with
  | nil => simp [insertByKey]
  | cons b t ih =>
    rw [insertByKey]
    by_cases h : key a ≤ key b
    · rw [if_pos h]
      simp
    · rw [if_neg h]
      simp [ih]
      tauto

theorem sorted_insertByKey {α : Type} (key : α → Rat) (a : α) {l : List α}
    (hl : List.Pairwise (fun x y => key x ≤ key y) l) :
    List.Pairwise (fun x y => key x ≤ key y) (insertByKey key a l) := by
  induction l with
  | nil => simp [insertByKey]
  | cons b t ih =>
    rw [insertByKey]
    by_cases h : key a ≤ key b
    · rw [if_pos h]
      refine List.Pairwise.cons ?_ hl
      intro x hx
      rcases List.mem_cons.mp hx with rfl | hx
      · exact h
      · exact le_trans h (List.rel_of_pairwise_cons hl hx)
    · rw [if_neg h]
      obtain ⟨hb, ht⟩ := List.pairwise_cons.mp hl
      refine List.Pairwise.cons ?_ (ih ht)
      intro x hx
      rcases (mem_insertByKey key a x t).mp hx with rfl | hx
      · exact le_of_not_le h
      · exact hb x hx

theorem sorted_sortByKey {α : Type} (key : α → Rat) (l : List α) :
    List.Pairwise (fun x y => key x ≤ key y) (sortByKey key l) := by
  induction l with
  | nil => simp [sortByKey]
  | cons a t ih => exact sorted_insertByKey key a ih

theorem mem_sortByKey {α : Type} (key : α → Rat) (x : α) (l : List α) :
    x ∈ sortByKey key l ↔ x ∈ l := by
  induction l with
  | nil => simp [sortByKey]
  | cons a t ih =>
    rw [sortByKey, mem_insertByKey, ih]
    simp

theorem mem_query {col : Collection} {distFn : List Rat → List Rat → Rat}
    {qe : List Rat} {n : Nat} {w : WhereClause}
    {t : String × IndexEntry × Rat} (ht : t ∈ col.query distFn qe n w) :
    ∃ p, p ∈ col ∧ matches_where w p.2.metadata.added_at_ts = true ∧
      t = (p.1, p.2, distFn qe p.2.embedding) := by
  unfold Collection.query at ht
  have h1 := (List.take_sublist _ _).mem ht
  rw [mem_sortByKey] at h1
  obtain ⟨p, hp, hpt⟩ := List.mem_map.mp h1
  obtain ⟨hpc, hpw⟩ := List.mem_filter.mp hp
  exact ⟨p, hpc, hpw, hpt.symm⟩

theorem get1_of_mem_nodup {col : Collection} {p : String × IndexEntry}
    (hmem : p ∈ col) (hnd : col.listIds.Nodup) : col.get1 p.1 = some p.2 := by
  induction col with
  | nil => cases hmem
  | cons h t ih =>
    rw [Collection.listIds, List.map_cons, List.nodup_cons] at hnd
    rcases List.mem_cons.mp hmem with rfl | hmem
    · rw [Collection.get1, List.find?_cons]
      simp
    · have hne : ¬ h.1 = p.1 := by
        intro he
        exact hnd.1 (he ▸ (List.mem_map.mpr ⟨p, hmem, rfl⟩))
      rw [Collection.get1, List.find?_cons]
      have hd : (decide (h.1 = p.1)) = false := by simp [hne]
      rw [hd]
      exact ih hmem hnd.2

/-- Claim C7 (ranking bound): with the query successfully embedded, search
returns at most `n_results` results; their similarities are non-increasing;
and the similarity list is exactly one minus the distances of the index
query's ascending-distance ranking, preserving its order. -/
theorem search_ranking (embedFn : String → Option (List Rat))
    (distFn : List Rat → List Rat → Rat) (col : Collection) (q : String)
    (n : Nat) (fd td : Option String) (qv : List Rat)
    (hq : embedFn q = some qv) :
    (search_templates embedFn distFn col q n fd td).length ≤ n ∧
    List.Pairwise (fun a b => b ≤ a)
      ((search_templates embedFn distFn col q n fd td).map
        (fun r => r.similarity)) ∧
    (search_templates embedFn distFn col q n fd td).map
        (fun r => r.similarity) =
      (col.query distFn qv n (build_where fd td)).map (fun t => 1 - t.2.2) := by
  have hs : search_templates embedFn distFn col q n fd td =
      (col.query distFn qv n (build_where fd td)).map (fun t =>
        { template_id := t.1
          name := t.2.1.metadata.name
          text_zones := digitsToNat t.2.1.metadata.text_zones.data
          added_at := t.2.1.metadata.added_at
          similarity := 1 - t.2.2
          config := t.2.1.metadata.config : SearchResult }) := by
    simp [search_templates, hq]
  have hsorted : List.Pairwise (fun t u : String × IndexEntry × Rat =>
      t.2.2 ≤ u.2.2) (col.query distFn qv n (build_where fd td)) := by
    unfold Collection.query
    exact List.Pairwise.sublist (List.take_sublist _ _) (sorted_sortByKey _ _)
  refine ⟨?_, ?_, ?_⟩
  · rw [hs, List.length_map]
    exact List.length_take_le _ _
  · rw [hs, List.map_map, List.pairwise_map]
    exact hsorted.imp (fun h => by
      simpa using sub_le_sub_left h 1)
  · rw [hs, List.map_map]
    rfl

/-- Witness for C7 at a concrete collection of two entries. -/
theorem search_ranking_witness :
    embedF "drake meme" = some [1] ∧
    ((search_templates embedF distF (colPos ++ colNeg) "drake meme" 1 none
        none).length ≤ 1 ∧
    List.Pairwise (fun a b => b ≤ a)
      ((search_templates embedF distF (colPos ++ colNeg) "drake meme" 1 none
        none).map (fun r => r.similarity)) ∧
    (search_templates embedF distF (colPos ++ colNeg) "drake meme" 1 none
        none).map (fun r => r.similarity) =
      ((colPos ++ colNeg).query distF [1] 1
        (build_where none none)).map (fun t => 1 - t.2.2)) :=
  ⟨rfl, search_ranking embedF distF (colPos ++ colNeg) "drake meme" 1 none
    none [1] rfl⟩

theorem build_where_gte {fdate : String} {fts : Int} (td : Option String)
    (hf : date_to_timestamp fdate = some fts) (hne : fts ≠ 0) :
    (build_where (some fdate) td).gte = some fts := by
  simp [build_where, hf, hne]

theorem build_where_lte (fd : Option String) {tdate : String} {tts : Int}
    (ht : date_to_timestamp tdate = some tts) (hne : tts ≠ 0) :
    (build_where fd (some tdate)).lte = some tts := by
  simp [build_where, ht, hne]

theorem matches_where_gte {w : WhereClause} {ts : Option Int} {g : Int}
    (hm : matches_where w ts = true) (hg : w.gte = some g) :
    ∃ t, ts = some t ∧ g ≤ t := by
  unfold matches_where at hm
  rw [hg, Bool.and_eq_true] at hm
  cases ts with
  | none => exact absurd hm.1 (by simp)
  | some t => exact ⟨t, rfl, by simpa using hm.1⟩

theorem matches_where_lte {w : WhereClause} {ts : Option Int} {l : Int}
    (hm : matches_where w ts = true) (hl : w.lte = some l) :
    ∃ t, ts = some t ∧ t ≤ l := by
  unfold matches_where at hm
  rw [hl, Bool.and_eq_true] at hm
  cases ts with
  | none => exact absurd hm.2 (by simp)
  | some t => exact ⟨t, rfl, by simpa using hm.2⟩

theorem search_mem {embedFn : String → Option (List Rat)}
    {distFn : List Rat → List Rat → Rat} {col : Collection} {q : String}
    {n : Nat} {fd td : Option String} {r : SearchResult}
    (hr : r ∈ search_templates embedFn distFn col q n fd td) :
    ∃ p, p ∈ col ∧
      matches_where (build_where fd td) p.2.metadata.added_at_ts = true ∧
      r.template_id = p.1 := by
  cases he : embedFn q with
  | none => simp [search_templates, he] at hr
  | some qv =>
    simp only [search_templates, he] at hr
    obtain ⟨t, ht, htr⟩ := List.mem_map.mp hr
    obtain ⟨p, hpc, hpw, hte⟩ := mem_query ht
    refine ⟨p, hpc, hpw, ?_⟩
    rw [← htr, hte]

/-- Claim C4 as amended (date filter correctness): whenever `fromDate` is
given and its computed epoch timestamp is non-zero, every returned result's
stored `added_at_ts` is a number at least that timestamp; symmetrically for
`toDate`; and when both are given (non-zero) with an inverted range the
result list is empty, not an error.  The non-zero proviso is forced by the
code's `if from_ts:` / `if to_ts:` truthiness tests, which silently drop a
constraint whose timestamp is the falsy number zero (the epoch date). -/
theorem date_filter_correct (embedFn : String → Option (List Rat))
    (distFn : List Rat → List Rat → Rat) (col : Collection) (q : String)
    (n : Nat) (fd td : Option String) (hnd : col.listIds.Nodup) :
    (∀ fdate fts, fd = some fdate → date_to_timestamp fdate = some fts →
      fts ≠ 0 →
      ∀ r ∈ search_templates embedFn distFn col q n fd td,
        ∃ e, col.get1 r.template_id = some e ∧
          ∃ t, e.metadata.added_at_ts = some t ∧ fts ≤ t) ∧
    (∀ tdate tts, td = some tdate → date_to_timestamp tdate = some tts →
      tts ≠ 0 →
      ∀ r ∈ search_templates embedFn distFn col q n fd td,
        ∃ e, col.get1 r.template_id = some e ∧
          ∃ t, e.metadata.added_at_ts = some t ∧ t ≤ tts) ∧
    (∀ fdate tdate fts tts, fd = some fdate → td = some tdate →
      date_to_timestamp fdate = some fts →
      date_to_timestamp tdate = some tts →
      fts ≠ 0 → tts ≠ 0 → tts < fts →
      search_templates embedFn distFn col q n fd td = []) := by
  refine ⟨?_, ?_, ?_⟩
  · intro fdate fts hfd hts hne r hr
    subst hfd
    obtain ⟨p, hpc, hpw, hid⟩ := search_mem hr
    obtain ⟨t, hts', hle⟩ := matches_where_gte hpw (build_where_gte td hts hne)
    refine ⟨p.2, ?_, t, hts', hle⟩
    rw [hid]
    exact get1_of_mem_nodup hpc hnd
  · intro tdate tts htd hts hne r hr
    subst htd
    obtain ⟨p, hpc, hpw, hid⟩ := search_mem hr
    obtain ⟨t, hts', hle⟩ := matches_where_lte hpw (build_where_lte fd hts hne)
    refine ⟨p.2, ?_, t, hts', hle⟩
    rw [hid]
    exact get1_of_mem_nodup hpc hnd
  · intro fdate tdate fts tts hfd htd hf ht hfne htne hlt
    subst hfd
    subst htd
    have hw : build_where (some fdate) (some tdate) =
        { gte := some fts, lte := some tts } := by
      simp [build_where, hf, ht, hfne, htne]
    cases he : embedFn q with
    | none => simp [search_templates, he]
    | some qv =>
      have hfil : col.filter (fun p =>
          matches_where (build_where (some fdate) (some tdate))
            p.2.metadata.added_at_ts) = [] := by
        rw [List.filter_eq_nil_iff]
        intro p hp hmw
        obtain ⟨t1, ht1, hle1⟩ := matches_where_gte hmw (by rw [hw])
        obtain ⟨t2, ht2, hle2⟩ := matches_where_lte hmw (by rw [hw])
        rw [ht1] at ht2
        injection ht2 with ht2
        omega
      simp [search_templates, he, Collection.query, hfil, sortByKey]

/-- Claim C4 counterexample: the epoch date `1970-01-01` converts to the
timestamp `0`, which is falsy in Python, so `search_templates` silently
drops the `fromDate` constraint and returns an entry whose stored
`added_at_ts` is `-86400`, violating the claimed lower bound. -/
theorem date_filter_counterexample :
    date_to_timestamp "1970-01-01" = some 0 ∧
    (search_templates embedF distF colNeg "q" 5 (some "1970-01-01")
        none).map (fun r => r.template_id) = ["a"] ∧
    (colNeg.get1 "a").map (fun e => e.metadata.added_at_ts) =
      some (some (-86400)) ∧
    ¬ ((0 : Int) ≤ -86400) := by
  exact ⟨by decide, by decide, by decide, by decide⟩

/-- Witness for C4's amended statement: the inverted range of spec
scenario 3 yields an empty result, and a satisfiable `fromDate` bound is
satisfied by the returned entry's stored timestamp. -/
theorem date_filter_witness :
    search_templates embedF distF colPos "q" 5 (some "2020-01-01")
      (some "2019-01-01") = [] ∧
    (∃ e, colPos.get1 rPos.template_id = some e ∧
      ∃ t, e.metadata.added_at_ts = some t ∧ (1546300800 : Int) ≤ t) := by
  have hs : search_templates embedF distF colPos "q" 5 (some "2019-01-01")
      none = [rPos] := by
    have hbw : build_where (some "2019-01-01") none =
        { gte := some (1546300800 : Int), lte := none } := by decide
    simp [search_templates, embedF, hbw, Collection.query, colPos,
      matches_where, sortByKey, insertByKey, distF, entPos, rPos]
    decide
  refine ⟨(date_filter_correct embedF distF colPos "q" 5 (some "2020-01-01")
      (some "2019-01-01") (by decide)).2.2 "2020-01-01" "2019-01-01"
      1577836800 1546300800 rfl rfl (by decide) (by decide) (by decide)
      (by decide) (by decide), ?_⟩
  exact (date_filter_correct embedF distF colPos "q" 5 (some "2019-01-01")
      none (by decide)).1 "2019-01-01" 1546300800 rfl (by decide) (by decide)
      rPos (by rw [hs]; exact List.mem_singleton_self rPos)

theorem hasId_iff_mem_listIds {col : Collection} {id : String} :
    col.hasId id = true ↔ id ∈ col.listIds := by
  simp [Collection.hasId, Collection.listIds, List.any_eq_true]

theorem hasId_of_get1 {col : Collection} {id : String} {e : IndexEntry}
    (h : col.get1 id = some e) : col.hasId id = true := by
  rw [Collection.get1, Option.map_eq_some'] at h
  obtain ⟨p, hp, _⟩ := h
  rw [Collection.hasId, List.any_eq_true]
  refine ⟨p, List.mem_of_find?_eq_some hp, ?_⟩
  have hps := List.find?_some hp
  simpa using hps

theorem listIds_append (c1 c2 : Collection) :
    (c1 ++ c2).listIds = c1.listIds ++ c2.listIds := by
  simp [Collection.listIds]

theorem hasId_append {c1 c2 : Collection} {id : String} :
    (c1 ++ c2).hasId id = (c1.hasId id || c2.hasId id) := by
  simp [Collection.hasId, List.any_append]

theorem get1_append_left {c1 : Collection} (c2 : Collection) {id : String}
    (h : c1.hasId id = true) : (c1 ++ c2).get1 id = c1.get1 id := by
  rw [Collection.hasId, List.any_eq_true] at h
  obtain ⟨p, hp, hpe⟩ := h
  have hsome : (c1.find? (fun p => p.1 = id)).isSome = true :=
    List.find?_isSome.mpr ⟨p, hp, hpe⟩
  obtain ⟨p', hp'⟩ := Option.isSome_iff_exists.mp hsome
  rw [Collection.get1, Collection.get1, List.find?_append, hp']
  rfl

theorem scrape_preserves_id (scrapeFn : String → Option ScrapeResult)
    (c : TemplateConfig) (force : Bool) :
    ((scrape_and_update_config scrapeFn c force).1).template_id =
      c.template_id := by
  cases hs : c.source with
  | none => simp [scrape_and_update_config, hs]
  | some src =>
    by_cases h1 : src = ""
    · simp [scrape_and_update_config, hs, h1]
    · by_cases h2 : force = false ∧ truthyStr c.scraped_content = true
      · simp [scrape_and_update_config, hs, h1, h2]
      · cases hr : scrapeFn src with
        | none => simp [scrape_and_update_config, hs, h1, h2, hr]
        | some r =>
          simp only [scrape_and_update_config, hs, h1, h2, hr, if_neg,
            if_false]
          rcases r with ⟨rt, ra, rd⟩
          cases ra <;> cases rd <;> simp [h1, h2] <;> split_ifs <;> rfl

theorem process_loop_cons (embedFn : String → Option (List Rat))
    (scrapeFn : String → Option ScrapeResult) (force : Bool)
    (c : TemplateConfig) (rest : List TemplateConfig) (cnt : Nat)
    (col : Collection) :
    process_missing_loop embedFn scrapeFn force (c :: rest) (cnt, col) =
      process_missing_loop embedFn scrapeFn force rest
        (if (add_template embedFn col
              ((scrape_and_update_config scrapeFn c force).1).template_id
              (scrape_and_update_config scrapeFn c force).1
              (create_template_text
                (scrape_and_update_config scrapeFn c force).1)).1
         then cnt + 1 else cnt,
         (add_template embedFn col
            ((scrape_and_update_config scrapeFn c force).1).template_id
            (scrape_and_update_config scrapeFn c force).1
            (create_template_text
              (scrape_and_update_config scrapeFn c force).1)).2) := rfl

theorem get_missing_eq (store : List TemplateConfig) (col : Collection) :
    get_missing_templates store col =
      store.filter (fun c => ¬ col.hasId c.template_id = true) := by
  simp only [get_missing_templates]
  apply List.filter_congr
  intro c hc
  by_cases h : col.hasId c.template_id = true
  · have hnm : c.template_id ∉
        (store.map (fun c => c.template_id)).filter
          (fun id => ¬ col.hasId id = true) := by
      simp [List.mem_filter, h]
    simp [hnm, h]
  · have hm : c.template_id ∈
        (store.map (fun c => c.template_id)).filter
          (fun id => ¬ col.hasId id = true) := by
      rw [List.mem_filter]
      exact ⟨List.mem_map_of_mem _ hc, by simp [h]⟩
    simp [hm, h]
    exact ⟨c, hc, rfl⟩

theorem process_loop_spec (embedFn : String → Option (List Rat))
    (scrapeFn : String → Option ScrapeResult) (force : Bool)
    (hembed : ∀ t, ∃ v, embedFn t = some v ∧ v ≠ []) :
    ∀ (cs : List TemplateConfig) (cnt : Nat) (col : Collection),
      (cs.map (fun c => c.template_id)).Nodup →
      (∀ c ∈ cs, col.hasId c.template_id = false) →
      (process_missing_loop embedFn scrapeFn force cs (cnt, col)).1 =
        cnt + cs.length ∧
      (process_missing_loop embedFn scrapeFn force cs (cnt, col)).2.listIds =
        col.listIds ++ cs.map (fun c => c.template_id) ∧
      (∀ id, col.hasId id = true →
        (process_missing_loop embedFn scrapeFn force cs (cnt, col)).2.get1
          id = col.get1 id) := by
  intro cs
  induction cs with
  | nil =>
    intro cnt col _ _
    exact ⟨rfl, by simp [process_missing_loop, Collection.listIds],
      fun id _ => rfl⟩
  | cons c rest ih =>
    intro cnt col hnd hfresh
    rw [List.map_cons, List.nodup_cons] at hnd
    obtain ⟨hnotin, hndr⟩ := hnd
    set c2 := (scrape_and_update_config scrapeFn c force).1 with hc2
    obtain ⟨v, hv, hvne⟩ := hembed (create_template_text c2)
    have hid2 : c2.template_id = c.template_id := by
      rw [hc2]
      exact scrape_preserves_id scrapeFn c force
    have hfr : col.hasId c2.template_id = false := by
      rw [hid2]
      exact hfresh c (List.mem_cons_self c rest)
    set e1 : IndexEntry :=
      { embedding := v, document := create_template_text c2,
        metadata := add_metadata c2.template_id c2 } with he1
    have hadd : add_template embedFn col c2.template_id c2
        (create_template_text c2) =
        (true, col ++ [(c2.template_id, e1)]) := by
      simp [add_template, hv, hvne, hfr, he1]
    have hstep : process_missing_loop embedFn scrapeFn force (c :: rest)
        (cnt, col) =
        process_missing_loop embedFn scrapeFn force rest
          (cnt + 1, col ++ [(c2.template_id, e1)]) := by
      rw [process_loop_cons, ← hc2, hadd]
      rfl
    have hfresh2 : ∀ c' ∈ rest,
        (col ++ [(c2.template_id, e1)]).hasId c'.template_id = false := by
      intro c' hc'
      rw [hasId_append]
      have h1 : col.hasId c'.template_id = false :=
        hfresh c' (List.mem_cons_of_mem _ hc')
      have h2 : Collection.hasId [(c2.template_id, e1)] c'.template_id =
          false := by
        simp only [Collection.hasId, List.any_cons, List.any_nil,
          Bool.or_false]
        rw [hid2]
        simp only [decide_eq_false_iff_not]
        intro he
        exact hnotin (he ▸ List.mem_map_of_mem _ hc')
      rw [h1, h2]
      rfl
    obtain ⟨ih1, ih2, ih3⟩ :=
      ih (cnt + 1) (col ++ [(c2.template_id, e1)]) hndr hfresh2
    rw [hstep]
    refine ⟨?_, ?_, ?_⟩
    · rw [ih1, List.length_cons]
      omega
    · rw [ih2, listIds_append, List.map_cons]
      simp [Collection.listIds, List.append_assoc, hid2]
    · intro id hid
      have hidn : (col ++ [(c2.template_id, e1)]).hasId id = true := by
        rw [hasId_append, hid]
        rfl
      rw [ih3 id hidn, get1_append_left _ hid]

/-- Claim C6 (incremental repair completeness): the missing ids are exactly
the store ids minus the indexed ids, in store order; when every embedding
call succeeds the loop processes exactly those configs and returns their
count; afterwards every store id is indexed; and the entries of
already-indexed ids are untouched.  The store ids are assumed pairwise
distinct (they are directory names in the source). -/
theorem incremental_repair (embedFn : String → Option (List Rat))
    (scrapeFn : String → Option ScrapeResult) (store : List TemplateConfig)
    (col : Collection) (force : Bool)
    (hnd : (store.map (fun c => c.template_id)).Nodup)
    (hembed : ∀ t, ∃ v, embedFn t = some v ∧ v ≠ []) :
    (get_missing_templates store col).map (fun c => c.template_id) =
      (store.map (fun c => c.template_id)).filter
        (fun id => ¬ col.hasId id = true) ∧
    (process_missing_templates embedFn scrapeFn store col force).1 =
      (get_missing_templates store col).length ∧
    (∀ c ∈ store,
      (process_missing_templates embedFn scrapeFn store col force).2.hasId
        c.template_id = true) ∧
    (∀ id, col.hasId id = true →
      (process_missing_templates embedFn scrapeFn store col force).2.get1
        id = col.get1 id) := by
  have hmap : (get_missing_templates store col).map (fun c => c.template_id) =
      (store.map (fun c => c.template_id)).filter
        (fun id => ¬ col.hasId id = true) := by
    rw [get_missing_eq, List.filter_map]
    rfl
  have hndm : ((get_missing_templates store col).map
      (fun c => c.template_id)).Nodup := by
    rw [hmap]
    exact List.Nodup.filter _ hnd
  have hfresh : ∀ c ∈ get_missing_templates store col,
      col.hasId c.template_id = false := by
    intro c hc
    rw [get_missing_eq, List.mem_filter] at hc
    simpa using hc.2
  obtain ⟨h1, h2, h3⟩ := process_loop_spec embedFn scrapeFn force hembed
    (get_missing_templates store col) 0 col hndm hfresh
  refine ⟨hmap, ?_, ?_, ?_⟩
  · rw [process_missing_templates, h1]
    omega
  · intro c hc
    rw [process_missing_templates, hasId_iff_mem_listIds, h2,
      List.mem_append]
    by_cases h : col.hasId c.template_id = true
    · exact Or.inl (hasId_iff_mem_listIds.mp h)
    · refine Or.inr ?_
      have hcm : c ∈ get_missing_templates store col := by
        rw [get_missing_eq, List.mem_filter]
        exact ⟨hc, by simp [h]⟩
      exact List.mem_map_of_mem _ hcm
  · intro id hid
    rw [process_missing_templates]
    exact h3 id hid

/-- Witness for C6 at spec scenario 4: store ids `a`, `b`, `c`, index
holding `a`; repair processes exactly `b` and `c`, returns 2, completes the
index, and leaves the entry of `a` untouched. -/
theorem incremental_repair_witness :
    (get_missing_templates [cfgDrake, cfgB, cfgC] colA).map
      (fun c => c.template_id) = ["b", "c"] ∧
    (process_missing_templates embedF scrapeF [cfgDrake, cfgB, cfgC] colA
      false).1 = 2 ∧
    (process_missing_templates embedF scrapeF [cfgDrake, cfgB, cfgC] colA
      false).2.hasId "b" = true ∧
    (process_missing_templates embedF scrapeF [cfgDrake, cfgB, cfgC] colA
      false).2.hasId "c" = true ∧
    (process_missing_templates embedF scrapeF [cfgDrake, cfgB, cfgC] colA
      false).2.get1 "a" = colA.get1 "a" := by
  have h := incremental_repair embedF scrapeF [cfgDrake, cfgB, cfgC] colA
    false (by decide) (fun t => ⟨[1], rfl, by decide⟩)
  refine ⟨?_, ?_, ?_, ?_, ?_⟩
  · rw [h.1]
    decide
  · rw [h.2.1]
    decide
  · exact h.2.2.1 cfgB (by decide)
  · exact h.2.2.1 cfgC (by decide)
  · exact h.2.2.2 "a" (by decide)

theorem listIds_updateEntry (col : Collection) (id : String)
    (e : IndexEntry) : (col.updateEntry id e).listIds = col.listIds := by
  rw [Collection.updateEntry, Collection.listIds, Collection.listIds,
    List.map_map]
  apply List.map_congr_left
  intro p _
  by_cases h : p.1 = id
  · simp [h]
  · simp [h]

theorem get1_updateEntry_ne {col : Collection} {id : String}
    {e : IndexEntry} {i : String} (h : i ≠ id) :
    (col.updateEntry id e).get1 i = col.get1 i := by
  induction col with
  | nil => rfl
  | cons p t ih =>
    rw [Collection.updateEntry, List.map_cons]
    by_cases hp : p.1 = id
    · rw [if_pos hp, Collection.get1, List.find?_cons]
      have hd : (decide (id = i)) = false := by
        simp
        exact fun he => h he.symm
      rw [hd]
      have hd2 : (decide (p.1 = i)) = false := by
        simp [hp]
        exact fun he => h he.symm
      rw [Collection.get1, List.find?_cons, hd2]
      exact ih
    · rw [if_neg hp, Collection.get1, List.find?_cons]
      by_cases hpi : p.1 = i
      · have hd : (decide (p.1 = i)) = true := by simp [hpi]
        rw [hd, Collection.get1, List.find?_cons, hd]
      · have hd : (decide (p.1 = i)) = false := by simp [hpi]
        rw [hd, Collection.get1, List.find?_cons, hd]
        exact ih

theorem get1_updateEntry_self {col : Collection} {id : String}
    {e : IndexEntry} (h : col.hasId id = true) :
    (col.updateEntry id e).get1 id = some e := by
  induction col with
  | nil => simp [Collection.hasId] at h
  | cons p t ih =>
    rw [Collection.updateEntry, List.map_cons]
    by_cases hp : p.1 = id
    · rw [if_pos hp, Collection.get1, List.find?_cons]
      simp
    · rw [if_neg hp, Collection.get1, List.find?_cons]
      have hd : (decide (p.1 = id)) = false := by simp [hp]
      rw [hd]
      have ht : Collection.hasId t id = true := by
        rw [Collection.hasId, List.any_cons] at h
        rcases (Bool.or_eq_true _ _).mp h with hl | hr
        · exact absurd (by simpa using hl) hp
        · exact hr
      exact ih ht

theorem refresh_loop_skip (cfgOf : String → Option TemplateConfig)
    (id0 : String) (rest : List String) (cnt : Nat) (col : Collection)
    (h : cfgOf id0 = none) :
    refresh_loop cfgOf (id0 :: rest) (cnt, col) =
      refresh_loop cfgOf rest (cnt, col) := by
  rw [refresh_loop, h]

theorem refresh_loop_gone (cfgOf : String → Option TemplateConfig)
    (id0 : String) (rest : List String) (cnt : Nat) (col : Collection)
    (cfg : TemplateConfig) (h : cfgOf id0 = some cfg)
    (hg : col.get1 id0 = none) :
    refresh_loop cfgOf (id0 :: rest) (cnt, col) =
      refresh_loop cfgOf rest (cnt, col) := by
  rw [refresh_loop, h, hg]

theorem refresh_loop_upd (cfgOf : String → Option TemplateConfig)
    (id0 : String) (rest : List String) (cnt : Nat) (col : Collection)
    (cfg : TemplateConfig) (e : IndexEntry) (h : cfgOf id0 = some cfg)
    (hg : col.get1 id0 = some e) :
    refresh_loop cfgOf (id0 :: rest) (cnt, col) =
      refresh_loop cfgOf rest (cnt + 1,
        col.updateEntry id0
          { embedding := e.embedding, document := e.document,
            metadata := refresh_metadata id0 cfg }) := by
  rw [refresh_loop, h, hg]

theorem refresh_loop_spec (cfgOf : String → Option TemplateConfig) :
    ∀ (ids : List String) (cnt : Nat) (col : Collection), ids.Nodup →
      (refresh_loop cfgOf ids (cnt, col)).2.listIds = col.listIds ∧
      (∀ id, id ∉ ids →
        (refresh_loop cfgOf ids (cnt, col)).2.get1 id = col.get1 id) ∧
      (∀ id, id ∈ ids → ∀ e, col.get1 id = some e →
        (refresh_loop cfgOf ids (cnt, col)).2.get1 id =
          some (match cfgOf id with
            | some cfg =>
              { embedding := e.embedding, document := e.document,
                metadata := refresh_metadata id cfg }
            | none => e)) := by
  intro ids
  induction ids with
  | nil =>
    intro cnt col _
    exact ⟨rfl, fun id _ => rfl, fun id hid => absurd hid (by simp)⟩
  | cons id0 rest ih =>
    intro cnt col hnd
    rw [List.nodup_cons] at hnd
    obtain ⟨hnotin, hndr⟩ := hnd
    cases hcfg : cfgOf id0 with
    | none =>
      rw [refresh_loop_skip cfgOf id0 rest cnt col hcfg]
      obtain ⟨ih1, ih2, ih3⟩ := ih cnt col hndr
      refine ⟨ih1, ?_, ?_⟩
      · intro id hid
        exact ih2 id (fun hm => hid (List.mem_cons_of_mem _ hm))
      · intro id hid e hge
        rcases List.mem_cons.mp hid with rfl | hidr
        · rw [hcfg, ih2 id hnotin, hge]
        · exact ih3 id hidr e hge
    | some cfg =>
      cases hg : col.get1 id0 with
      | none =>
        rw [refresh_loop_gone cfgOf id0 rest cnt col cfg hcfg hg]
        obtain ⟨ih1, ih2, ih3⟩ := ih cnt col hndr
        refine ⟨ih1, ?_, ?_⟩
        · intro id hid
          exact ih2 id (fun hm => hid (List.mem_cons_of_mem _ hm))
        · intro id hid e hge
          rcases List.mem_cons.mp hid with rfl | hidr
          · rw [hge] at hg
            cases hg
          · exact ih3 id hidr e hge
      | some e0 =>
        rw [refresh_loop_upd cfgOf id0 rest cnt col cfg e0 hcfg hg]
        obtain ⟨ih1, ih2, ih3⟩ := ih (cnt + 1)
          (col.updateEntry id0
            { embedding := e0.embedding, document := e0.document,
              metadata := refresh_metadata id0 cfg }) hndr
        refine ⟨?_, ?_, ?_⟩
        · rw [ih1, listIds_updateEntry]
        · intro id hid
          have hne : id ≠ id0 := fun he => hid (he ▸ List.mem_cons_self _ _)
          rw [ih2 id (fun hm => hid (List.mem_cons_of_mem _ hm)),
            get1_updateEntry_ne hne]
        · intro id hid e hge
          rcases List.mem_cons.mp hid with rfl | hidr
          · rw [hge] at hg
            injection hg with hg
            subst hg
            rw [ih2 id hnotin, hcfg,
              get1_updateEntry_self (hasId_of_get1 hge)]
          · have hne : id ≠ id0 := fun he => hnotin (he ▸ hidr)
            exact ih3 id hidr e (by rw [get1_updateEntry_ne hne, hge])

/-- Claim C8 (metadata-only refresh frame): the refresh pass keeps the set
of stored ids, and for every already-indexed id the stored entry's vector
and document are exactly unchanged while its metadata block is replaced by
the freshly computed one (when the id's config is readable; an unreadable
config skips the id, leaving even the metadata unchanged). -/
theorem metadata_refresh_frame (cfgOf : String → Option TemplateConfig)
    (col : Collection) (hnd : col.listIds.Nodup) :
    (process_updated_metadata cfgOf col).2.listIds = col.listIds ∧
    (∀ id e, col.get1 id = some e →
      ∃ e1, (process_updated_metadata cfgOf col).2.get1 id = some e1 ∧
        e1.embedding = e.embedding ∧ e1.document = e.document ∧
        e1.metadata = (match cfgOf id with
          | some cfg => refresh_metadata id cfg
          | none => e.metadata)) := by
  obtain ⟨h1, h2, h3⟩ := refresh_loop_spec cfgOf col.listIds 0 col hnd
  refine ⟨h1, ?_⟩
  intro id e hge
  have hmem : id ∈ col.listIds :=
    hasId_iff_mem_listIds.mp (hasId_of_get1 hge)
  have hh := h3 id hmem e hge
  cases hcfg : cfgOf id with
  | some cfg =>
    rw [hcfg] at hh
    exact ⟨_, hh, rfl, rfl, rfl⟩
  | none =>
    rw [hcfg] at hh
    exact ⟨e, hh, rfl, rfl, rfl⟩

/-- Witness for C8 at a one-entry collection whose id has a readable
config: the embedding and document survive the refresh while the metadata
is recomputed. -/
theorem metadata_refresh_frame_witness :
    (process_updated_metadata cfgOfA colNeg).2.listIds = colNeg.listIds ∧
    (∃ e1, (process_updated_metadata cfgOfA colNeg).2.get1 "a" = some e1 ∧
      e1.embedding = entNeg.embedding ∧ e1.document = entNeg.document ∧
      e1.metadata = refresh_metadata "a" cfgDrake) := by
  have h := metadata_refresh_frame cfgOfA colNeg (by decide)
  refine ⟨h.1, ?_⟩
  obtain ⟨e1, he1, he2, he3, he4⟩ := h.2 "a" entNeg (by decide)
  refine ⟨e1, he1, he2, he3, ?_⟩
  rw [he4]
  decide
